import Mathlib

/-!
# MIF remote client factory and protocol chain

A shallow embedding of `include/mif/remote/predefined/client_factory.h`
(`MakeClientFactory`, `CreateService`) together with the collaborators that
the header only names: the worker pool, the creators, the chain object behind
a `Net::IClientFactory::ClientPtr`, the framing layer, the transport session
and the pending-call table of the PS client.
-/

namespace Mif

/-! ## Data model of `client_factory.h` -/

/-- The template argument `TSerialization`; `boostBinary` is the default
`Serialization::Boost::Binary`. -/
inductive Serialization
  | boostBinary
  | custom (tag : Nat)
  deriving DecidableEq, Repr

/-- The template argument `TInterface` of `CreateService`. -/
structure Interface where
  name : String
  deriving DecidableEq, Repr

/-- A `std::chrono::microseconds` value: a signed tick count. -/
abbrev Microseconds := Int

/-- A `Service::IFactoryPtr`: a shared pointer, `none` when null, otherwise the
identity of the service factory it points at. -/
abbrev IFactoryPtr := Option Nat

/-- Modelled from the spec: `Common::CreateThreadPool` (thread_pool.h) is not in
the sources; the worker pool is sized by `threadCount` ("sizing via
`threadCount`", "worker pool of `threadCount` workers"). -/
structure ThreadPool where
  workerCount : Nat
  deriving DecidableEq, Repr

/-- Modelled from the spec: `Common::CreateThreadPool(count)` creates a pool of
`count` workers. -/
def CreateThreadPool (count : Fin 65536) : ThreadPool :=
  { workerCount := count.val }

/-- The type names used by the two functions: `PSClient<S>` and
`Protocol::ArchivedFrame<Client>`; `foreign` stands for any other
implementation of the `IClient` interface. -/
inductive ChainType
  | archivedFramePSClient (S : Serialization)
  | foreign (tag : Nat)
  deriving DecidableEq, Repr

/-- A layer object of a chain: the transport session and the framing layer of
the spec's chain (§3, §4.4), and the two objects that the creators of
lines 48-49 build. -/
inductive ChainItem
  | transportSession
  | framingLayer
  | parallelHandler (workers : ThreadPool)
  | psClient (S : Serialization) (timeout : Microseconds) (factory : IFactoryPtr)
  deriving DecidableEq, Repr

/-- Whether a chain item is a PS client. -/
def ChainItem.isPSClient : ChainItem → Bool
  | ChainItem.psClient _ _ _ => true
  | _ => false

/-- Modelled from the spec: `Common::MakeCreator<T>(args...)` is not in the
sources; it is the deferred constructor call that keeps its arguments and
builds the `T` when the factory asks for it (the factory "wraps that in a PS
Client configured with `timeout` and `serviceFactory`"). -/
abbrev Creator := Unit → ChainItem

/-- `Common::MakeCreator<Net::Clients::ParallelHandler>(workers)`. -/
def MakeCreatorParallelHandler (workers : ThreadPool) : Creator :=
  fun _ => ChainItem.parallelHandler workers

/-- `Common::MakeCreator<PSClient<S>>(timeout, factory)`. -/
def MakeCreatorClient (S : Serialization) (timeout : Microseconds)
    (factory : IFactoryPtr) : Creator :=
  fun _ => ChainItem.psClient S timeout factory

/-- The object behind a non-null `Net::IClientFactory::ClientPtr`: its dynamic
type and its layer objects, bottom first. -/
structure IClient where
  dynamicType : ChainType
  items : List ChainItem
  deriving DecidableEq, Repr

/-- A `Net::IClientFactory::ClientPtr`: `none` is the null pointer. -/
abbrev ClientPtr := Option IClient

/-- A `Net::ClientFactory<ProtocolChain>` as `MakeClientFactory` constructs it:
the chain type it instantiates and the creators it was given, in argument
order. -/
structure ClientFactory where
  chain : ChainType
  creators : List Creator

/-- The chain type `ProtocolChain` of lines 42-44:
`Protocol::ArchivedFrame<PSClient<TSerialization>>`. -/
def MakeClientFactory.ProtocolChain (TSerialization : Serialization) : ChainType :=
  ChainType.archivedFramePSClient TSerialization

/-- `MakeClientFactory<TSerialization>(threadCount, timeout, factory)`,
lines 35-51. `threadCount` is a `std::uint16_t`; the default argument of
`factory` is left to the caller. -/
def MakeClientFactory (TSerialization : Serialization) (threadCount : Fin 65536)
    (timeout : Microseconds) (factory : IFactoryPtr) : ClientFactory :=
  let workers := CreateThreadPool threadCount
  { chain := MakeClientFactory.ProtocolChain TSerialization
    creators :=
      [ MakeCreatorParallelHandler workers,
        MakeCreatorClient TSerialization timeout factory ] }

/-- Modelled from the spec: `Net::ClientFactory<Chain>::Create` and
`Protocol::ArchivedFrame` are not in the sources. Per connection the factory
"constructs a Transport Session around the new socket, wraps it in a Framing
Layer, wraps that in a PS Client configured with `timeout` and
`serviceFactory`", and "returns an opaque handle" (§4.4); the PS client is "on
top" (§3). The PS client is the one its creator builds; what the other
creators of the factory build (line 48) is part of the chain as well, below
the PS client. -/
def ClientFactory.Create (f : ClientFactory) : ClientPtr :=
  some
    { dynamicType := f.chain
      items :=
        ChainItem.transportSession :: ChainItem.framingLayer ::
          ((f.creators.map (fun c => c ())).filter (fun i => !i.isPSClient) ++
            (f.creators.map (fun c => c ())).filter ChainItem.isPSClient) }

/-- The worker pools that the chain items of a factory run on. -/
def ClientFactory.workerPools (f : ClientFactory) : List ThreadPool :=
  (f.creators.map (fun c => c ())).filterMap
    (fun i => match i with
      | ChainItem.parallelHandler w => some w
      | _ => none)

/-- The PS client of a chain, as `CreateService` sees it. -/
structure PSClient where
  serialization : Serialization
  timeout : Microseconds
  factory : IFactoryPtr
  deriving DecidableEq, Repr

/-- The PS clients that the creators of a factory build. -/
def ClientFactory.psClients (f : ClientFactory) : List PSClient :=
  (f.creators.map (fun c => c ())).filterMap
    (fun i => match i with
      | ChainItem.psClient S timeout factory =>
          some { serialization := S, timeout := timeout, factory := factory }
      | _ => none)

/-- The kinds of layer: the three of the spec's chain (§3) and the
`Net::Clients::ParallelHandler` of line 48. -/
inductive Layer
  | transportSession
  | framingLayer
  | psClient
  | parallelHandler
  deriving DecidableEq, Repr

/-- The kind of a chain item. -/
def ChainItem.layer : ChainItem → Layer
  | ChainItem.transportSession => Layer.transportSession
  | ChainItem.framingLayer => Layer.framingLayer
  | ChainItem.parallelHandler _ => Layer.parallelHandler
  | ChainItem.psClient _ _ _ => Layer.psClient

/-- A `Service::TServicePtr<TInterface>`: the proxy returned to the caller. -/
structure TServicePtr where
  interface : Interface
  serviceId : String
  token : Nat
  deriving DecidableEq, Repr

/-- Exceptions thrown by `CreateService` itself. -/
inductive Exception
  | invalid_argument (what : String)
  deriving DecidableEq, Repr

/-- How a call of `CreateService` ends. `undefined` is the unchecked
`std::static_pointer_cast` applied to an object of another type. -/
inductive Outcome
  | returned (service : TServicePtr)
  | threw (e : Exception)
  | undefined
  deriving DecidableEq, Repr

/-- The statements of `CreateService` that a call executes, in order. -/
inductive Step
  | testClient
  | testServiceId
  | throwInvalidArgument (line : Nat)
  | staticPointerCast
  | getClientItem
  | psCreateService (ps : PSClient) (serviceId : String)
  deriving DecidableEq, Repr

/-- Whether a statement is the call of the PS client's `CreateService`. -/
def Step.isPSCall : Step → Bool
  | Step.psCreateService _ _ => true
  | _ => false

/-- Whether a statement is a `throw`. -/
def Step.isThrow : Step → Bool
  | Step.throwInvalidArgument _ => true
  | _ => false

/-- The callee of line 69, `PSClient<S>::CreateService<TInterface>(serviceId)`
(ps_client.h, not in the sources): it returns a proxy and may read and change
the connection state `σ` (chain, session, socket). -/
structure Collaborators (σ : Type) where
  psCreateService : PSClient → Interface → String → σ → TServicePtr × σ

/-- A sample PS client behaviour over a call counter: the proxy binds the
interface and the service id, and every call is counted. -/
def Collaborators.counting : Collaborators Nat :=
  { psCreateService := fun _ I id st => ({ interface := I, serviceId := id, token := st }, st + 1) }

/-- The result of running `CreateService`: how it ended, the connection state
afterwards and the statements executed. -/
structure Run (σ : Type) where
  outcome : Outcome
  state : σ
  trace : List Step

/-- The chain type `ClientsChain` of lines 63-65:
`Protocol::ArchivedFrame<PSClient<TSerialization>>`. -/
def CreateService.ClientsChain (TSerialization : Serialization) : ChainType :=
  ChainType.archivedFramePSClient TSerialization

/-- `std::static_pointer_cast<ClientsChain>(client)`, line 67: no run-time
check; defined only when the object has the target type. -/
def static_pointer_cast (target : ChainType) (client : IClient) : Option IClient :=
  if client.dynamicType = target then some client else none

/-- Modelled from the spec: `ClientsChain::GetClientItem<PSClient<S>>()` is not
in the sources; it "resolves the PS Client layer inside `handle`". -/
def GetClientItem (S : Serialization) (proxy : IClient) : Option PSClient :=
  proxy.items.findSome? (fun i => match i with
    | ChainItem.psClient S1 timeout factory =>
        if S1 = S then some { serialization := S1, timeout := timeout, factory := factory }
        else none
    | _ => none)

/-- `CreateService<TInterface, TSerialization>(client, serviceId)`,
lines 53-72. -/
def CreateService {σ : Type} (env : Collaborators σ) (TInterface : Interface)
    (TSerialization : Serialization) (client : ClientPtr) (serviceId : String)
    (st : σ) : Run σ :=
  match client with
  | none =>
      { outcome := Outcome.threw (Exception.invalid_argument "")
        state := st
        trace := [Step.testClient, Step.throwInvalidArgument 58] }
  | some obj =>
      if serviceId.isEmpty then
        { outcome := Outcome.threw (Exception.invalid_argument "")
          state := st
          trace := [Step.testClient, Step.testServiceId, Step.throwInvalidArgument 61] }
      else
        match static_pointer_cast (CreateService.ClientsChain TSerialization) obj with
        | none =>
            { outcome := Outcome.undefined
              state := st
              trace := [Step.testClient, Step.testServiceId, Step.staticPointerCast] }
        | some proxy =>
            match GetClientItem TSerialization proxy with
            | none =>
                { outcome := Outcome.undefined
                  state := st
                  trace := [Step.testClient, Step.testServiceId, Step.staticPointerCast,
                    Step.getClientItem] }
            | some ps =>
                let service := env.psCreateService ps TInterface serviceId st
                { outcome := Outcome.returned service.1
                  state := service.2
                  trace := [Step.testClient, Step.testServiceId, Step.staticPointerCast,
                    Step.getClientItem, Step.psCreateService ps serviceId] }

/-! ## Framing layer (spec §4.2, §6) -/

namespace Framing

/-- One octet of the byte stream. -/
abbrev Byte := Fin 256

/-- Modelled from the spec: the framing layer (archived_frame.h and the frame
clients) is not in the sources. The 4-byte length header of a frame,
most significant byte first (the end-to-end example sends `00 00 00 05`
for a 5-byte payload). -/
def encodeLength (n : Nat) : List Byte :=
  [Fin.ofNat (n / 16777216), Fin.ofNat (n / 65536), Fin.ofNat (n / 256), Fin.ofNat n]

/-- Modelled from the spec: the length that a 4-byte header declares. -/
def decodeLength (b0 b1 b2 b3 : Byte) : Nat :=
  b0.val * 16777216 + b1.val * 65536 + b2.val * 256 + b3.val

/-- Modelled from the spec: the outgoing path of the framing layer, "prepend a
4-byte ... length header equal to the message's byte length". -/
def wrap (message : List Byte) : List Byte :=
  encodeLength message.length ++ message

/-- The byte stream of a list of messages: their frames, concatenated. -/
def wrapAll (messages : List (List Byte)) : List Byte :=
  (messages.map wrap).flatten

/-- Modelled from the spec: the extraction loop of the incoming path. "If the
buffer holds ≥4 header bytes, read the declared length; if the buffer then
holds ≥ header+length bytes, extract exactly that many payload bytes as one
logical message, deliver it upward, and remove the consumed bytes from the
front of the buffer; otherwise stop". Returns the delivered messages and the
remaining buffer; every round consumes at least the header, so `fuel` equal to
the buffer length is never exhausted before the loop stops. -/
def extractLoop : Nat → List Byte → List (List Byte) × List Byte
  | 0, buffer => ([], buffer)
  | fuel + 1, buffer =>
    match buffer with
    | b0 :: b1 :: b2 :: b3 :: rest =>
      if decodeLength b0 b1 b2 b3 ≤ rest.length then
        let more := extractLoop fuel (rest.drop (decodeLength b0 b1 b2 b3))
        (rest.take (decodeLength b0 b1 b2 b3) :: more.1, more.2)
      else ([], buffer)
    | _ => ([], buffer)

/-- The state of the incoming path: the per-session accumulation buffer and
the messages delivered upward so far, oldest first. -/
structure FramingLayer where
  buffer : List Byte
  delivered : List (List Byte)
  deriving DecidableEq, Repr

/-- A framing layer of a fresh session. -/
def FramingLayer.init : FramingLayer :=
  { buffer := [], delivered := [] }

/-- Modelled from the spec: one delivery from the transport session, "append
the new bytes, then repeatedly" extract. -/
def FramingLayer.onData (layer : FramingLayer) (bytes : List Byte) : FramingLayer :=
  let buffer := layer.buffer ++ bytes
  let out := extractLoop buffer.length buffer
  { buffer := out.2, delivered := layer.delivered ++ out.1 }

/-- Feeding the reads of the transport session one at a time. -/
def FramingLayer.feed (layer : FramingLayer) (chunks : List (List Byte)) : FramingLayer :=
  chunks.foldl FramingLayer.onData layer

end Framing

/-! ## Transport session lifecycle (spec §3, §4.1) -/

namespace Transport

/-- Lifecycle state of a session. -/
inductive Lifecycle
  | Open
  | Closing
  | Closed
  deriving DecidableEq, Repr

/-- Modelled from the spec: `TCPSession` is only declared in tcp_session.h, its
member functions are not in the sources. The session of §3: socket handle,
pending-write queue, lifecycle state; `closedTransitions` and `releases` count
the transitions to `Closed` and the releases of the session's resources. -/
structure Session where
  lifecycle : Lifecycle
  reading : Bool
  socketOpen : Bool
  writeQueue : List (List Framing.Byte)
  written : List (List Framing.Byte)
  closedTransitions : Nat
  releases : Nat
  deriving DecidableEq, Repr

/-- A session around a freshly connected socket. -/
def Session.init : Session :=
  { lifecycle := Lifecycle.Open, reading := false, socketOpen := true,
    writeQueue := [], written := [], closedTransitions := 0, releases := 0 }

/-- Modelled from the spec: `Start()` "begins the asynchronous read loop". -/
def Session.Start (s : Session) : Session :=
  if s.lifecycle = Lifecycle.Open then { s with reading := true } else s

/-- Modelled from the spec: `Send(buffer)` "enqueues `buffer` for asynchronous
write". -/
def Session.Send (s : Session) (buffer : List Framing.Byte) : Session :=
  if s.lifecycle = Lifecycle.Open then { s with writeQueue := s.writeQueue ++ [buffer] } else s

/-- Modelled from the spec: completion of one asynchronous write, "flushed in
FIFO order". -/
def Session.writeDone (s : Session) : Session :=
  if s.lifecycle = Lifecycle.Open then
    match s.writeQueue with
    | [] => s
    | b :: rest => { s with writeQueue := rest, written := s.written ++ [b] }
  else s

/-- Modelled from the spec: `Close()` "stops reading, flushes queued writes
(best effort), closes the socket, transitions to Closed. Idempotent". -/
def Session.Close (s : Session) : Session :=
  if s.lifecycle = Lifecycle.Closed then s
  else
    { lifecycle := Lifecycle.Closed
      reading := false
      socketOpen := false
      writeQueue := []
      written := s.written ++ s.writeQueue
      closedTransitions := s.closedTransitions + 1
      releases := s.releases + 1 }

/-- What can happen to a session; the calls arrive one at a time on the
session's own serialized execution context. -/
inductive Event
  | start
  | send (buffer : List Framing.Byte)
  | writeDone
  | ioError
  | close
  deriving DecidableEq, Repr

/-- One event. "Any read or write error triggers `Close()` automatically". -/
def Session.step (s : Session) : Event → Session
  | Event.start => s.Start
  | Event.send buffer => s.Send buffer
  | Event.writeDone => s.writeDone
  | Event.ioError => s.Close
  | Event.close => s.Close

/-- A history of events, applied from left to right. -/
def Session.run (s : Session) (events : List Event) : Session :=
  events.foldl Session.step s

/-- The counters of a session agree with its lifecycle state: one transition
and one release once it is `Closed`, none before. -/
def Session.Consistent (s : Session) : Prop :=
  if s.lifecycle = Lifecycle.Closed then s.closedTransitions = 1 ∧ s.releases = 1
  else s.closedTransitions = 0 ∧ s.releases = 0

end Transport

/-! ## Pending-call table of the PS client (spec §3, §4.3) -/

namespace PS

/-- Modelled from the spec: a Pending Call, "{correlation id, wait slot,
deadline, result-or-error on completion}"; the entry is in the table exactly
while the call is outstanding. -/
structure PendingCall where
  correlationId : Nat
  deadline : Nat
  deriving DecidableEq, Repr

/-- How a wait slot was resolved. -/
inductive Resolution
  | response
  | error
  | timeout
  | disconnected
  deriving DecidableEq, Repr

/-- Modelled from the spec: ps_client.h is not in the sources. The part of a PS
client that correlates calls: the configured timeout, the next correlation id
("monotonically increasing"), the pending-call table and the resolved wait
slots. -/
structure Client where
  timeout : Nat
  nextId : Nat
  pending : List PendingCall
  resolved : List (Nat × Resolution)
  deriving DecidableEq, Repr

/-- A PS client with no call issued yet. -/
def Client.init (timeout : Nat) : Client :=
  { timeout := timeout, nextId := 0, pending := [], resolved := [] }

/-- Modelled from the spec: step 1 of a call, "allocate a fresh correlation
id". -/
def Client.allocate (c : Client) : Nat :=
  c.nextId

/-- Modelled from the spec: steps 1 and 3 of a call issued at time `now`. -/
def Client.issue (c : Client) (now : Nat) : Client :=
  let id := c.allocate
  { c with
    nextId := id + 1
    pending := { correlationId := id, deadline := now + c.timeout } :: c.pending }

/-- Modelled from the spec: step 4, arrival of a Response or Error envelope;
an envelope for an id that is not in the table is "looked up, not found,
dropped". -/
def Client.arrive (c : Client) (id : Nat) (r : Resolution) : Client :=
  if c.pending.any (fun p => p.correlationId == id) then
    { c with
      pending := c.pending.filter (fun p => p.correlationId != id)
      resolved := c.resolved ++ [(id, r)] }
  else c

/-- Modelled from the spec: step 5, the deadlines that have passed at time
`now` resolve with a Timeout failure and their entries are removed. -/
def Client.expire (c : Client) (now : Nat) : Client :=
  { c with
    pending := c.pending.filter (fun p => decide (now < p.deadline))
    resolved := c.resolved ++
      ((c.pending.filter (fun p => decide (p.deadline ≤ now))).map
        (fun p => (p.correlationId, Resolution.timeout))) }

/-- Modelled from the spec: a disconnect "resolves every Pending Call in the
table with a Disconnected failure, in one pass, before the table is
discarded". -/
def Client.disconnect (c : Client) : Client :=
  { c with
    pending := []
    resolved := c.resolved ++ c.pending.map (fun p => (p.correlationId, Resolution.disconnected)) }

/-- The events of one PS client. -/
inductive Event
  | issue (now : Nat)
  | response (id : Nat)
  | error (id : Nat)
  | tick (now : Nat)
  | disconnect
  deriving DecidableEq, Repr

/-- One event. -/
def Client.step (c : Client) : Event → Client
  | Event.issue now => c.issue now
  | Event.response id => c.arrive id Resolution.response
  | Event.error id => c.arrive id Resolution.error
  | Event.tick now => c.expire now
  | Event.disconnect => c.disconnect

/-- A history of events, applied from left to right. -/
def Client.run (c : Client) (events : List Event) : Client :=
  events.foldl Client.step c

/-- The correlation ids in the pending-call table. -/
def Client.pendingIds (c : Client) : List Nat :=
  c.pending.map (fun p => p.correlationId)

/-- The pending-call table holds each correlation id at most once, and only
ids that were already allocated. -/
def Client.Consistent (c : Client) : Prop :=
  c.pendingIds.Nodup ∧ ∀ id ∈ c.pendingIds, id < c.nextId

end PS

/-! ## `CreateService` -/

theorem CreateService_null {σ : Type} (env : Collaborators σ) (I : Interface) (S : Serialization)
    (serviceId : String) (st : σ) :
    CreateService env I S none serviceId st =
      { outcome := Outcome.threw (Exception.invalid_argument "")
        state := st
        trace := [Step.testClient, Step.throwInvalidArgument 58] } := rfl

theorem CreateService_empty {σ : Type} (env : Collaborators σ) (I : Interface) (S : Serialization)
    (obj : IClient) (st : σ) :
    CreateService env I S (some obj) "" st =
      { outcome := Outcome.threw (Exception.invalid_argument "")
        state := st
        trace := [Step.testClient, Step.testServiceId, Step.throwInvalidArgument 61] } := rfl

theorem isEmpty_eq_false {serviceId : String} (h : serviceId ≠ "") :
    serviceId.isEmpty = false := by
  cases hb : serviceId.isEmpty with
  | false => rfl
  | true => exact absurd ((String.isEmpty_iff serviceId).1 hb) h

theorem CreateService_valid {σ : Type} (env : Collaborators σ) (I : Interface) (S : Serialization)
    (obj : IClient) (serviceId : String) (st : σ) (hid : serviceId ≠ "") :
    CreateService env I S (some obj) serviceId st =
      match (static_pointer_cast (CreateService.ClientsChain S) obj).bind (GetClientItem S) with
      | some ps =>
          { outcome := Outcome.returned (env.psCreateService ps I serviceId st).1
            state := (env.psCreateService ps I serviceId st).2
            trace := [Step.testClient, Step.testServiceId, Step.staticPointerCast,
              Step.getClientItem, Step.psCreateService ps serviceId] }
      | none =>
          { outcome := Outcome.undefined
            state := st
            trace := (CreateService env I S (some obj) serviceId st).trace } := by
  simp only [CreateService, isEmpty_eq_false hid]
  cases hc : static_pointer_cast (CreateService.ClientsChain S) obj with
  | none => simp
  | some proxy =>
    cases hg : GetClientItem S proxy with
    | none => simp [hg]
    | some ps => simp [hg]

/-- C1: for every handle and service id, `CreateService` throws
`std::invalid_argument` whenever the handle is null or the service id is
empty (so `CreateService(handle, "")` throws for every handle). -/
theorem CreateService_argument_error {σ : Type} (env : Collaborators σ) (I : Interface)
    (S : Serialization) (client : ClientPtr) (serviceId : String) (st : σ)
    (h : client = none ∨ serviceId = "") :
    (CreateService env I S client serviceId st).outcome =
      Outcome.threw (Exception.invalid_argument "") := by
  cases client with
  | none => rfl
  | some obj =>
    rcases h with h | h
    · cases h
    · subst h; rfl

/-- Witness of C1: a non-null handle with the empty service id. -/
theorem CreateService_argument_error_witness :
    ((some { dynamicType := ChainType.foreign 0, items := [] } : ClientPtr) = none ∨ "" = "") ∧
    (@CreateService Nat Collaborators.counting
        ⟨"IService"⟩ Serialization.boostBinary
        (some { dynamicType := ChainType.foreign 0, items := [] }) "" 0).outcome =
      Outcome.threw (Exception.invalid_argument "") :=
  ⟨Or.inr rfl,
   CreateService_argument_error _ _ _ _ _ _ (Or.inr rfl)⟩

theorem CreateService_threw_iff {σ : Type} (env : Collaborators σ) (I : Interface)
    (S : Serialization) (client : ClientPtr) (serviceId : String) (st : σ) (e : Exception)
    (h : (CreateService env I S client serviceId st).outcome = Outcome.threw e) :
    client = none ∨ serviceId = "" := by
  cases client with
  | none => exact Or.inl rfl
  | some obj =>
    by_cases hid : serviceId = ""
    · exact Or.inr hid
    · exfalso
      rw [CreateService_valid env I S obj serviceId st hid] at h
      cases hx : (static_pointer_cast (CreateService.ClientsChain S) obj).bind (GetClientItem S) with
      | none => rw [hx] at h; simp at h
      | some ps => rw [hx] at h; simp at h

/-- C2: whenever `CreateService` throws, it throws before any other action:
the trace holds neither the cast, nor `GetClientItem`, nor the PS client's
`CreateService`; the connection state is returned unchanged; and the same
exception results for every connection state and every PS client behaviour,
so none of them was read. -/
theorem CreateService_fails_before_any_action {σ : Type} (env : Collaborators σ)
    (I : Interface) (S : Serialization) (client : ClientPtr) (serviceId : String) (st : σ)
    (e : Exception)
    (h : (CreateService env I S client serviceId st).outcome = Outcome.threw e) :
    (CreateService env I S client serviceId st).state = st ∧
    Step.staticPointerCast ∉ (CreateService env I S client serviceId st).trace ∧
    Step.getClientItem ∉ (CreateService env I S client serviceId st).trace ∧
    (∀ ps id, Step.psCreateService ps id ∉ (CreateService env I S client serviceId st).trace) ∧
    (∀ (env2 : Collaborators σ) (st2 : σ),
      (CreateService env2 I S client serviceId st2).outcome = Outcome.threw e ∧
      (CreateService env2 I S client serviceId st2).state = st2) := by
  have hcase := CreateService_threw_iff env I S client serviceId st e h
  cases client with
  | none =>
    simp only [CreateService_null] at h ⊢
    refine ⟨trivial, by simp, by simp, by simp, fun _ _ => ⟨h, trivial⟩⟩
  | some obj =>
    rcases hcase with hc | hc
    · cases hc
    · subst hc
      simp only [CreateService_empty] at h ⊢
      refine ⟨trivial, by simp, by simp, by simp, fun _ _ => ⟨h, trivial⟩⟩

/-- Witness of C2: the null handle. -/
theorem CreateService_fails_before_any_action_witness :
    (@CreateService Nat Collaborators.counting
        ⟨"IService"⟩ Serialization.boostBinary none "svc" 7).state = 7 ∧
    Step.staticPointerCast ∉
      (@CreateService Nat Collaborators.counting
        ⟨"IService"⟩ Serialization.boostBinary none "svc" 7).trace :=
  have h := @CreateService_fails_before_any_action Nat Collaborators.counting
    ⟨"IService"⟩ Serialization.boostBinary none "svc" 7 (Exception.invalid_argument "") rfl
  ⟨h.1, h.2.1⟩

theorem static_pointer_cast_factory (S : Serialization) (threadCount : Fin 65536)
    (timeout : Microseconds) (factory : IFactoryPtr) (obj : IClient)
    (h : (MakeClientFactory S threadCount timeout factory).Create = some obj) :
    (static_pointer_cast (CreateService.ClientsChain S) obj).bind (GetClientItem S) =
      some { serialization := S, timeout := timeout, factory := factory } := by
  simp only [ClientFactory.Create, MakeClientFactory, Option.some.injEq] at h
  subst h
  simp [static_pointer_cast, CreateService.ClientsChain, MakeClientFactory.ProtocolChain,
    GetClientItem, MakeCreatorParallelHandler, MakeCreatorClient, ChainItem.isPSClient]

/-- Counterexample to C3 as stated: a non-null handle to an `IClient` that is
not an `ArchivedFrame<PSClient<Binary>>`, with the service id `"svc"`. The
unchecked cast of line 67 is undefined there: no proxy is returned and the PS
client's `CreateService` is not called. -/
theorem CreateService_foreign_handle_undefined :
    (@CreateService Nat Collaborators.counting ⟨"IService"⟩ Serialization.boostBinary
      (some { dynamicType := ChainType.foreign 0, items := [] }) "svc" 0).outcome =
      Outcome.undefined ∧
    (@CreateService Nat Collaborators.counting ⟨"IService"⟩ Serialization.boostBinary
      (some { dynamicType := ChainType.foreign 0, items := [] }) "svc" 0).trace.filter
        Step.isPSCall = [] ∧
    ¬ ∃ service,
      (@CreateService Nat Collaborators.counting ⟨"IService"⟩ Serialization.boostBinary
        (some { dynamicType := ChainType.foreign 0, items := [] }) "svc" 0).outcome =
        Outcome.returned service := by
  have h := CreateService_valid Collaborators.counting ⟨"IService"⟩ Serialization.boostBinary
    { dynamicType := ChainType.foreign 0, items := [] } "svc" 0 (by decide)
  have hc : (static_pointer_cast (CreateService.ClientsChain Serialization.boostBinary)
      { dynamicType := ChainType.foreign 0, items := [] }).bind
        (GetClientItem Serialization.boostBinary) = none := rfl
  rw [hc] at h
  have ho : (@CreateService Nat Collaborators.counting ⟨"IService"⟩ Serialization.boostBinary
      (some { dynamicType := ChainType.foreign 0, items := [] }) "svc" 0).outcome =
      Outcome.undefined := by rw [h]
  refine ⟨ho, ?_, ?_⟩
  · simp [CreateService, isEmpty_eq_false, static_pointer_cast, CreateService.ClientsChain,
      Step.isPSCall]
  · rintro ⟨service, hs⟩
    rw [ho] at hs
    cases hs

/-- C3, amended: for every non-null handle and every non-empty service id,
`CreateService` throws no `std::invalid_argument`. When the handle holds a
chain of the type `ArchivedFrame<PSClient<S>>` to which line 67 casts, with
its PS client `ps`, the call returns exactly the proxy, and leaves exactly the
state, that `ps`'s own `CreateService` gives for the same service id, calling
it exactly once. Every handle that the factory of `MakeClientFactory<S>`
creates is such a handle, `ps` being the PS client built from the factory's
`timeout` and `factory`. -/
theorem CreateService_delegates {σ : Type} (env : Collaborators σ) (I : Interface)
    (S : Serialization) (obj : IClient) (serviceId : String) (st : σ)
    (hid : serviceId ≠ "") :
    (∀ what, (CreateService env I S (some obj) serviceId st).outcome ≠
      Outcome.threw (Exception.invalid_argument what)) ∧
    (∀ ps, (static_pointer_cast (CreateService.ClientsChain S) obj).bind (GetClientItem S) = some ps →
      (CreateService env I S (some obj) serviceId st).outcome =
        Outcome.returned (env.psCreateService ps I serviceId st).1 ∧
      (CreateService env I S (some obj) serviceId st).state =
        (env.psCreateService ps I serviceId st).2 ∧
      (CreateService env I S (some obj) serviceId st).trace.filter Step.isPSCall =
        [Step.psCreateService ps serviceId]) ∧
    (∀ threadCount timeout factory,
      (MakeClientFactory S threadCount timeout factory).Create = some obj →
      (CreateService env I S (some obj) serviceId st).outcome =
        Outcome.returned
          (env.psCreateService { serialization := S, timeout := timeout, factory := factory }
            I serviceId st).1 ∧
      (CreateService env I S (some obj) serviceId st).state =
        (env.psCreateService { serialization := S, timeout := timeout, factory := factory }
            I serviceId st).2 ∧
      (CreateService env I S (some obj) serviceId st).trace.filter Step.isPSCall =
        [Step.psCreateService { serialization := S, timeout := timeout, factory := factory }
          serviceId]) := by
  have hdel : ∀ ps,
      (static_pointer_cast (CreateService.ClientsChain S) obj).bind (GetClientItem S) = some ps →
      (CreateService env I S (some obj) serviceId st).outcome =
        Outcome.returned (env.psCreateService ps I serviceId st).1 ∧
      (CreateService env I S (some obj) serviceId st).state =
        (env.psCreateService ps I serviceId st).2 ∧
      (CreateService env I S (some obj) serviceId st).trace.filter Step.isPSCall =
        [Step.psCreateService ps serviceId] := by
    intro ps hps
    rw [CreateService_valid env I S obj serviceId st hid, hps]
    simp [Step.isPSCall]
  refine ⟨?_, hdel, ?_⟩
  · intro what h
    rcases CreateService_threw_iff env I S (some obj) serviceId st _ h with h1 | h1
    · cases h1
    · exact hid h1
  · intro threadCount timeout factory hobj
    exact hdel _ (static_pointer_cast_factory S threadCount timeout factory obj hobj)

/-- Witness of C3: the handle created by the factory of
`MakeClientFactory<Binary>(4, 1000µs, factory 1)` and the service id `"svc"`. -/
theorem CreateService_delegates_witness :
    ∃ obj, (MakeClientFactory Serialization.boostBinary 4 1000 (some 1)).Create = some obj ∧
      (@CreateService Nat Collaborators.counting ⟨"IService"⟩ Serialization.boostBinary
        (some obj) "svc" 7).outcome = Outcome.returned ⟨⟨"IService"⟩, "svc", 7⟩ :=
  ⟨_, rfl,
    ((@CreateService_delegates Nat Collaborators.counting ⟨"IService"⟩
      Serialization.boostBinary _ "svc" 7 (by decide)).2.2 4 1000 (some 1) rfl).1⟩

/-- C10: a null handle and an empty service id raise the same exception,
`std::invalid_argument` with the empty message; the handle is tested first
(with a null handle the service id is never tested, whatever it is); and for a
null handle with an empty service id exactly one `throw` is executed. -/
theorem CreateService_same_error {σ : Type} (env : Collaborators σ) (I : Interface)
    (S : Serialization) (obj : IClient) (serviceId : String) (st : σ) :
    (CreateService env I S none serviceId st).outcome =
      Outcome.threw (Exception.invalid_argument "") ∧
    (CreateService env I S (some obj) "" st).outcome =
      Outcome.threw (Exception.invalid_argument "") ∧
    (CreateService env I S none serviceId st).outcome =
      (CreateService env I S (some obj) "" st).outcome ∧
    (CreateService env I S none serviceId st).trace =
      [Step.testClient, Step.throwInvalidArgument 58] ∧
    (CreateService env I S (some obj) "" st).trace =
      [Step.testClient, Step.testServiceId, Step.throwInvalidArgument 61] ∧
    (CreateService env I S none "" st).trace =
      [Step.testClient, Step.throwInvalidArgument 58] ∧
    ((CreateService env I S none "" st).trace.filter Step.isThrow).length = 1 :=
  ⟨rfl, rfl, rfl, rfl, rfl, rfl, rfl⟩

/-! ## `MakeClientFactory` -/

/-- C4: for every `threadCount`, `timeout` and `factory`, the factory returned
by `MakeClientFactory` runs on one worker pool, of exactly `threadCount`
workers, and its creators build one PS client, with exactly the given
serialization, `timeout` and `factory`. -/
theorem MakeClientFactory_passes_configuration (S : Serialization) (threadCount : Fin 65536)
    (timeout : Microseconds) (factory : IFactoryPtr) :
    (MakeClientFactory S threadCount timeout factory).workerPools =
      [{ workerCount := threadCount.val }] ∧
    (MakeClientFactory S threadCount timeout factory).psClients =
      [{ serialization := S, timeout := timeout, factory := factory }] :=
  ⟨rfl, rfl⟩

/-- C9: the chain type to which `CreateService<I, S>` casts is the chain type
that the factory of `MakeClientFactory<S>` creates; the factory's handle is
not null; from it the cast and `GetClientItem` yield the PS client built with
the factory's `timeout` and `factory`, and `CreateService` returns that PS
client's proxy. With another serialization `S2` nothing is checked: the call
does not throw, its behaviour is undefined. -/
theorem CreateService_on_factory_handle {σ : Type} (env : Collaborators σ) (I : Interface)
    (S : Serialization) (threadCount : Fin 65536) (timeout : Microseconds)
    (factory : IFactoryPtr) (serviceId : String) (st : σ) (hid : serviceId ≠ "") :
    CreateService.ClientsChain S = (MakeClientFactory S threadCount timeout factory).chain ∧
    ∃ obj, (MakeClientFactory S threadCount timeout factory).Create = some obj ∧
      (static_pointer_cast (CreateService.ClientsChain S) obj).bind (GetClientItem S) =
        some { serialization := S, timeout := timeout, factory := factory } ∧
      (CreateService env I S (some obj) serviceId st).outcome =
        Outcome.returned
          (env.psCreateService { serialization := S, timeout := timeout, factory := factory }
            I serviceId st).1 ∧
      ∀ S2, S2 ≠ S → (CreateService env I S2 (some obj) serviceId st).outcome = Outcome.undefined := by
  refine ⟨rfl, _, rfl, static_pointer_cast_factory S threadCount timeout factory _ rfl, ?_, ?_⟩
  · rw [CreateService_valid env I S _ serviceId st hid,
      static_pointer_cast_factory S threadCount timeout factory _ rfl]
  · intro S2 hS
    rw [CreateService_valid env I S2 _ serviceId st hid]
    have hc : ∀ items : List ChainItem, static_pointer_cast (CreateService.ClientsChain S2)
        { dynamicType := (MakeClientFactory S threadCount timeout factory).chain
          items := items }
        = none := by
      intro items
      simp [static_pointer_cast, CreateService.ClientsChain, MakeClientFactory,
        MakeClientFactory.ProtocolChain]
      exact fun h => hS h.symm
    rw [hc]
    rfl

/-- Witness of C9: the default serialization, 4 workers, 1000 µs, service id
`"svc"`. -/
theorem CreateService_on_factory_handle_witness :
    ∃ obj, (MakeClientFactory Serialization.boostBinary 4 1000 (some 1)).Create = some obj ∧
      (@CreateService Nat Collaborators.counting ⟨"IService"⟩ Serialization.boostBinary
        (some obj) "svc" 0).outcome =
        Outcome.returned
          (Collaborators.counting.psCreateService
            { serialization := Serialization.boostBinary, timeout := 1000, factory := some 1 }
            ⟨"IService"⟩ "svc" 0).1 :=
  match (@CreateService_on_factory_handle Nat Collaborators.counting ⟨"IService"⟩
    Serialization.boostBinary 4 1000 (some 1) "svc" 0 (by decide)).2 with
  | ⟨obj, h1, _, h3, _⟩ => ⟨obj, h1, h3⟩

/-! ## Framing round trip -/

namespace Framing

theorem decodeLength_encodeLength (n : Nat) (h : n < 4294967296) :
    decodeLength (Fin.ofNat (n / 16777216)) (Fin.ofNat (n / 65536)) (Fin.ofNat (n / 256))
      (Fin.ofNat n) = n := by
  simp only [decodeLength, Fin.ofNat]
  omega

theorem wrap_eq (message : List Byte) :
    wrap message =
      Fin.ofNat (message.length / 16777216) :: Fin.ofNat (message.length / 65536) ::
        Fin.ofNat (message.length / 256) :: Fin.ofNat message.length :: message := rfl

/-- One round of the extraction loop on a buffer with a complete header. -/
theorem extractLoop_succ (fuel : Nat) (b0 b1 b2 b3 : Byte) (rest : List Byte) :
    extractLoop (fuel + 1) (b0 :: b1 :: b2 :: b3 :: rest) =
      if decodeLength b0 b1 b2 b3 ≤ rest.length then
        (rest.take (decodeLength b0 b1 b2 b3) ::
          (extractLoop fuel (rest.drop (decodeLength b0 b1 b2 b3))).1,
         (extractLoop fuel (rest.drop (decodeLength b0 b1 b2 b3))).2)
      else ([], b0 :: b1 :: b2 :: b3 :: rest) := rfl

/-- Any fuel that covers the buffer gives the same result. -/
theorem extractLoop_fuel (fuel : Nat) :
    ∀ (fuel2 : Nat) (buffer : List Byte), buffer.length ≤ fuel → buffer.length ≤ fuel2 →
      extractLoop fuel buffer = extractLoop fuel2 buffer := by
  induction fuel with
  | zero =>
    intro fuel2 buffer h1 _
    have hb : buffer = [] := List.length_eq_zero.1 (Nat.le_zero.1 h1)
    subst hb
    cases fuel2 <;> rfl
  | succ fuel ih =>
    intro fuel2 buffer h1 h2
    cases fuel2 with
    | zero =>
      have hb : buffer = [] := List.length_eq_zero.1 (Nat.le_zero.1 h2)
      subst hb
      rfl
    | succ fuel2 =>
      rcases buffer with _ | ⟨b0, _ | ⟨b1, _ | ⟨b2, _ | ⟨b3, rest⟩⟩⟩⟩ <;> try rfl
      rw [extractLoop_succ, extractLoop_succ]
      by_cases hc : decodeLength b0 b1 b2 b3 ≤ rest.length
      · simp only [hc, if_true]
        have hd : (rest.drop (decodeLength b0 b1 b2 b3)).length ≤ rest.length := by
          simp [List.length_drop]
        simp only [List.length_cons] at h1 h2
        rw [ih fuel2 _ (by omega) (by omega)]
      · simp only [hc, if_false]

/-- The extraction loop on a buffer that starts with a complete frame. -/
theorem extractLoop_complete (b0 b1 b2 b3 : Byte) (rest : List Byte)
    (h : decodeLength b0 b1 b2 b3 ≤ rest.length) :
    extractLoop (b0 :: b1 :: b2 :: b3 :: rest).length (b0 :: b1 :: b2 :: b3 :: rest) =
      (rest.take (decodeLength b0 b1 b2 b3) ::
        (extractLoop (rest.drop (decodeLength b0 b1 b2 b3)).length
          (rest.drop (decodeLength b0 b1 b2 b3))).1,
       (extractLoop (rest.drop (decodeLength b0 b1 b2 b3)).length
          (rest.drop (decodeLength b0 b1 b2 b3))).2) := by
  have hd : (rest.drop (decodeLength b0 b1 b2 b3)).length ≤ rest.length := by
    simp [List.length_drop]
  simp only [List.length_cons]
  rw [extractLoop_succ, if_pos h,
    extractLoop_fuel (rest.length + 1 + 1 + 1) _ _ (by omega) (Nat.le_refl _)]

/-- The extraction loop on a buffer whose frame is not complete yet. -/
theorem extractLoop_incomplete (b0 b1 b2 b3 : Byte) (rest : List Byte)
    (h : ¬ decodeLength b0 b1 b2 b3 ≤ rest.length) :
    extractLoop (b0 :: b1 :: b2 :: b3 :: rest).length (b0 :: b1 :: b2 :: b3 :: rest) =
      ([], b0 :: b1 :: b2 :: b3 :: rest) := by
  simp only [List.length_cons]
  rw [extractLoop_succ, if_neg h]

/-- Bytes that arrive later do not change what was already extracted: the
extraction of `buffer ++ more` is the extraction of `buffer` followed by the
extraction of what `buffer` left over, with `more` appended. -/
theorem extractLoop_append (n : Nat) :
    ∀ (buffer more : List Byte), buffer.length ≤ n →
      extractLoop (buffer ++ more).length (buffer ++ more) =
        ((extractLoop buffer.length buffer).1 ++
          (extractLoop ((extractLoop buffer.length buffer).2 ++ more).length
            ((extractLoop buffer.length buffer).2 ++ more)).1,
         (extractLoop ((extractLoop buffer.length buffer).2 ++ more).length
            ((extractLoop buffer.length buffer).2 ++ more)).2) := by
  induction n with
  | zero =>
    intro buffer more h
    have hb : buffer = [] := List.length_eq_zero.1 (Nat.le_zero.1 h)
    subst hb
    simp [extractLoop]
  | succ n ih =>
    intro buffer more h
    rcases buffer with _ | ⟨b0, _ | ⟨b1, _ | ⟨b2, _ | ⟨b3, rest⟩⟩⟩⟩
    · simp [extractLoop]
    · simp [extractLoop]
    · simp [extractLoop]
    · simp [extractLoop]
    · by_cases hc : decodeLength b0 b1 b2 b3 ≤ rest.length
      · have hc2 : decodeLength b0 b1 b2 b3 ≤ (rest ++ more).length := by
          simp only [List.length_append]; omega
        have hd : (rest.drop (decodeLength b0 b1 b2 b3)).length ≤ n := by
          simp only [List.length_cons] at h
          simp only [List.length_drop]
          omega
        rw [extractLoop_complete b0 b1 b2 b3 rest hc]
        show extractLoop (b0 :: b1 :: b2 :: b3 :: (rest ++ more)).length
          (b0 :: b1 :: b2 :: b3 :: (rest ++ more)) = _
        rw [extractLoop_complete b0 b1 b2 b3 (rest ++ more) hc2,
          List.take_append_of_le_length hc, List.drop_append_of_le_length hc,
          ih _ more hd]
        simp
      · rw [extractLoop_incomplete b0 b1 b2 b3 rest hc]
        simp

/-- The extraction loop on the frames of a list of messages delivers the
messages and leaves nothing. -/
theorem extractLoop_wrapAll (messages : List (List Byte))
    (hlen : ∀ m ∈ messages, m.length < 4294967296) :
    extractLoop (wrapAll messages).length (wrapAll messages) = (messages, []) := by
  induction messages with
  | nil => rfl
  | cons m ms ih =>
    have hm : m.length < 4294967296 := hlen m (List.mem_cons_self _ _)
    have hms : ∀ x ∈ ms, x.length < 4294967296 :=
      fun x hx => hlen x (List.mem_cons_of_mem _ hx)
    have hw : wrapAll (m :: ms) =
        Fin.ofNat (m.length / 16777216) :: Fin.ofNat (m.length / 65536) ::
          Fin.ofNat (m.length / 256) :: Fin.ofNat m.length :: (m ++ wrapAll ms) := by
      simp [wrapAll, wrap_eq]
    have hdec := decodeLength_encodeLength m.length hm
    rw [hw, extractLoop_complete _ _ _ _ _ (by rw [hdec]; simp), hdec]
    simp [ih hms]

/-- Feeding chunks to a fresh framing layer is the extraction loop on their
concatenation. -/
theorem feed_init (chunks : List (List Byte)) :
    FramingLayer.init.feed chunks =
      { buffer := (extractLoop chunks.flatten.length chunks.flatten).2
        delivered := (extractLoop chunks.flatten.length chunks.flatten).1 } := by
  induction chunks using List.reverseRecOn with
  | nil => rfl
  | append_singleton cs c ih =>
    simp only [FramingLayer.feed, List.foldl_append, List.foldl_cons, List.foldl_nil] at ih ⊢
    rw [ih]
    simp only [FramingLayer.onData, List.flatten_append, List.flatten_cons, List.flatten_nil,
      List.append_nil]
    rw [extractLoop_append cs.flatten.length cs.flatten c (Nat.le_refl _)]

/-- C5: framing round trip. For every list of messages whose lengths fit the
4-byte header, and every way of cutting the concatenated frames into chunks,
feeding the chunks one at a time to a fresh framing layer delivers exactly the
original messages, in order, each once, and leaves the buffer empty. -/
theorem framing_round_trip (messages chunks : List (List Byte))
    (hlen : ∀ m ∈ messages, m.length < 4294967296)
    (hsplit : chunks.flatten = wrapAll messages) :
    (FramingLayer.init.feed chunks).delivered = messages ∧
    (FramingLayer.init.feed chunks).buffer = [] := by
  rw [feed_init, hsplit, extractLoop_wrapAll messages hlen]
  exact ⟨rfl, rfl⟩

/-- Witness of C5: the bytes `00 00 00 05 'h' 'e' 'l' 'l' 'o'`, read as 4 bytes
and then 5 bytes, deliver the one message `"hello"`. -/
theorem framing_round_trip_witness :
    (FramingLayer.init.feed [[0, 0, 0, 5], [104, 101, 108, 108, 111]]).delivered =
      [[104, 101, 108, 108, 111]] ∧
    (FramingLayer.init.feed [[0, 0, 0, 5], [104, 101, 108, 108, 111]]).buffer = [] :=
  framing_round_trip [[104, 101, 108, 108, 111]] [[0, 0, 0, 5], [104, 101, 108, 108, 111]]
    (by decide) (by decide)

end Framing

/-! ## Idempotent close -/

namespace Transport

theorem Session.Close_lifecycle (s : Session) : s.Close.lifecycle = Lifecycle.Closed := by
  unfold Session.Close
  split
  · assumption
  · rfl

theorem Session.Close_of_closed (s : Session) (h : s.lifecycle = Lifecycle.Closed) :
    s.Close = s := by
  simp [Session.Close, h]

theorem Session.step_of_closed (s : Session) (h : s.lifecycle = Lifecycle.Closed) (e : Event) :
    s.step e = s := by
  cases e <;> simp [Session.step, Session.Start, Session.Send, Session.writeDone,
    Session.Close, h]

theorem Session.run_of_closed (events : List Event) :
    ∀ (s : Session), s.lifecycle = Lifecycle.Closed → s.run events = s := by
  induction events with
  | nil => intro s _; rfl
  | cons e es ih =>
    intro s h
    simp only [Session.run, List.foldl_cons] at ih ⊢
    rw [Session.step_of_closed s h e]
    exact ih s h

theorem Session.Consistent_init : Session.init.Consistent := by
  simp [Session.Consistent, Session.init]

theorem Session.Consistent_Close (s : Session) (h : s.Consistent) : s.Close.Consistent := by
  by_cases hc : s.lifecycle = Lifecycle.Closed
  · rw [Session.Close_of_closed s hc]; exact h
  · simp only [Session.Consistent, hc, if_false] at h
    simp [Session.Consistent, Session.Close, hc, h.1, h.2]

theorem Session.Consistent_step (s : Session) (h : s.Consistent) (e : Event) :
    (s.step e).Consistent := by
  cases e with
  | start =>
    simp only [Session.step, Session.Start]
    split
    · exact h
    · exact h
  | send buffer =>
    simp only [Session.step, Session.Send]
    split
    · exact h
    · exact h
  | writeDone =>
    simp only [Session.step, Session.writeDone]
    split
    · split
      · exact h
      · exact h
    · exact h
  | ioError => exact Session.Consistent_Close s h
  | close => exact Session.Consistent_Close s h

theorem Session.Consistent_run (events : List Event) :
    ∀ (s : Session), s.Consistent → (s.run events).Consistent := by
  induction events with
  | nil => intro s h; exact h
  | cons e es ih =>
    intro s h
    simp only [Session.run, List.foldl_cons] at ih ⊢
    exact ih _ (Session.Consistent_step s h e)

theorem Session.run_closed_of_mem (events : List Event) :
    ∀ (s : Session), Event.close ∈ events → (s.run events).lifecycle = Lifecycle.Closed := by
  induction events with
  | nil => intro s h; cases h
  | cons e es ih =>
    intro s h
    simp only [Session.run, List.foldl_cons] at ih ⊢
    by_cases he : e = Event.close
    · subst he
      have hc : (s.step Event.close).lifecycle = Lifecycle.Closed := Session.Close_lifecycle s
      have hr := Session.run_of_closed es _ hc
      simp only [Session.run] at hr
      rw [hr]; exact hc
    · rcases List.mem_cons.1 h with h1 | h1
      · exact absurd h1.symm he
      · exact ih _ h1

/-- C6: `Close` is idempotent. In every history of a session that holds at
least one `Close()` call, whatever else happens before, between and after the
calls, the session ends `Closed` with exactly one transition to `Closed` and
exactly one release of its resources; and in every state a `Close()` that
follows a `Close()` changes nothing. -/
theorem Session.Close_idempotent (events : List Event) (h : Event.close ∈ events) :
    (Session.init.run events).lifecycle = Lifecycle.Closed ∧
    (Session.init.run events).closedTransitions = 1 ∧
    (Session.init.run events).releases = 1 ∧
    (Session.init.run events).Close = Session.init.run events ∧
    ∀ s : Session, s.Close.Close = s.Close := by
  have hc := Session.run_closed_of_mem events Session.init h
  have hi := Session.Consistent_run events Session.init Session.Consistent_init
  simp only [Session.Consistent, hc, if_true] at hi
  exact ⟨hc, hi.1, hi.2, Session.Close_of_closed _ hc,
    fun s => Session.Close_of_closed _ (Session.Close_lifecycle s)⟩

/-- Witness of C6: a session that is started, sends, and is closed twice with
an I/O error in between. -/
theorem Session.Close_idempotent_witness :
    (Session.init.run [Event.start, Event.send [1, 2], Event.close, Event.ioError,
      Event.close]).closedTransitions = 1 ∧
    (Session.init.run [Event.start, Event.send [1, 2], Event.close, Event.ioError,
      Event.close]).releases = 1 :=
  have h := Session.Close_idempotent
    [Event.start, Event.send [1, 2], Event.close, Event.ioError, Event.close] (by decide)
  ⟨h.2.1, h.2.2.1⟩

end Transport

/-! ## Correlation uniqueness -/

namespace PS

theorem Client.table_init (timeout : Nat) : (Client.init timeout).Consistent := by
  simp [Client.Consistent, Client.init, Client.pendingIds]

theorem Client.table_issue (c : Client) (h : c.Consistent) (now : Nat) :
    (c.issue now).Consistent := by
  obtain ⟨hn, hb⟩ := h
  simp only [Client.Consistent, Client.issue, Client.allocate, Client.pendingIds,
    List.map_cons, List.nodup_cons, List.mem_cons] at hn hb ⊢
  refine ⟨⟨fun hm => Nat.lt_irrefl _ (hb _ hm), hn⟩, ?_⟩
  rintro id (rfl | hid)
  · exact Nat.lt_succ_self _
  · exact Nat.lt_succ_of_lt (hb id hid)

theorem Client.table_filter (c : Client) (h : c.Consistent) (keep : PendingCall → Bool)
    (resolved : List (Nat × Resolution)) :
    Client.Consistent { c with pending := c.pending.filter keep, resolved := resolved } := by
  obtain ⟨hn, hb⟩ := h
  have hs : List.Sublist ((c.pending.filter keep).map (fun p => p.correlationId))
      (c.pending.map (fun p => p.correlationId)) :=
    List.Sublist.map _ (List.filter_sublist _)
  exact ⟨hn.sublist hs, fun id hid => hb id (hs.subset hid)⟩

theorem Client.table_step (c : Client) (h : c.Consistent) (e : Event) :
    (c.step e).Consistent := by
  cases e with
  | issue now => exact Client.table_issue c h now
  | response id =>
    simp only [Client.step, Client.arrive]
    split
    · exact Client.table_filter c h _ _
    · exact h
  | error id =>
    simp only [Client.step, Client.arrive]
    split
    · exact Client.table_filter c h _ _
    · exact h
  | tick now => exact Client.table_filter c h _ _
  | disconnect =>
    simp [Client.step, Client.disconnect, Client.Consistent, Client.pendingIds]

theorem Client.table_run (events : List Event) :
    ∀ (c : Client), c.Consistent → (c.run events).Consistent := by
  induction events with
  | nil => intro c h; exact h
  | cons e es ih =>
    intro c h
    simp only [Client.run, List.foldl_cons] at ih ⊢
    exact ih _ (Client.table_step c h e)

/-- C7: correlation uniqueness. In every state that a PS client reaches by
any sequence of call issues, responses, errors, timeouts and disconnects, no
correlation id is twice in the pending-call table, the id allocated for the
next call is not in the table, and the table is still duplicate-free after
that call is registered. -/
theorem Client.correlation_unique (timeout : Nat) (events : List Event) (now : Nat) :
    ((Client.init timeout).run events).pendingIds.Nodup ∧
    ((Client.init timeout).run events).allocate ∉
      ((Client.init timeout).run events).pendingIds ∧
    (((Client.init timeout).run events).issue now).pendingIds.Nodup := by
  have h := Client.table_run events _ (Client.table_init timeout)
  exact ⟨h.1, fun hm => Nat.lt_irrefl _ (h.2 _ hm), (Client.table_issue _ h now).1⟩

end PS

end Mif
